import Mathlib

/-!
Verification development for the operator-996 time-series metrics subsystem.

The definitions below are a shallow embedding of the TypeScript source:
  * `src/routes/smartFrequency.ts` — in-memory measurement store, ingestion,
    listing, windowed analytics;
  * `src/services/biofeedback.ts` — `createMetric` / `batchCreateMetrics`
    against the `biofeedback_metrics` table;
  * the `biofeedback_5min_avg` continuous aggregate (SQL schema);
  * the feature gate in `src/index.ts`.

Modelling conventions: JavaScript numbers are modelled by `JNum`
(a rational, NaN, or a signed infinity, with IEEE comparison semantics);
timestamps are integers (epoch milliseconds; the source stores ISO-8601
strings whose lexicographic order agrees with time order); `uuidv4` is
modelled by threading a counter supply, so that each call yields a fresh
value; the database insert appends rows and reports the inserted row count.
-/

deriving instance DecidableEq for Except

namespace Operator996

/-- A JavaScript number: a finite rational, NaN, or a signed infinity. -/
inductive JNum where
  | finite (q : ℚ)
  | nan
  | posInf
  | negInf
deriving DecidableEq, Repr

/-- IEEE-style strict comparison `a < b` on JS numbers: any comparison with
NaN is false. -/
def jlt : JNum → JNum → Bool
  | .nan, _ => false
  | _, .nan => false
  | .negInf, .negInf => false
  | .negInf, _ => true
  | _, .negInf => false
  | .posInf, _ => false
  | .finite _, .posInf => true
  | .finite a, .finite b => decide (a < b)

/-- JS addition (as used by `reduce((a, b) => a + b, 0)`). -/
def jadd : JNum → JNum → JNum
  | .nan, _ => .nan
  | _, .nan => .nan
  | .posInf, .negInf => .nan
  | .negInf, .posInf => .nan
  | .posInf, _ => .posInf
  | _, .posInf => .posInf
  | .negInf, _ => .negInf
  | _, .negInf => .negInf
  | .finite a, .finite b => .finite (a + b)

/-- `Math.min` on two JS numbers (NaN propagates). -/
def jmin : JNum → JNum → JNum
  | .nan, _ => .nan
  | _, .nan => .nan
  | .negInf, _ => .negInf
  | _, .negInf => .negInf
  | .posInf, b => b
  | a, .posInf => a
  | .finite a, .finite b => .finite (min a b)

/-- `Math.max` on two JS numbers (NaN propagates). -/
def jmax : JNum → JNum → JNum
  | .nan, _ => .nan
  | _, .nan => .nan
  | .posInf, _ => .posInf
  | _, .posInf => .posInf
  | .negInf, b => b
  | a, .negInf => a
  | .finite a, .finite b => .finite (max a b)

/-- Division of a JS number by a positive sample count `n ≥ 1`
(as in `sum / frequencies.length` on a non-empty list). -/
def jdivNat (v : JNum) (n : ℕ) : JNum :=
  match v with
  | .finite q => .finite (q / (n : ℚ))
  | x => x

/-- Multiplication by the literal 1000 (`averageHz * 1000`). -/
def jmul1000 : JNum → JNum
  | .finite q => .finite (q * 1000)
  | x => x

/-- Division by the literal 1000 (`... / 1000`). -/
def jdiv1000 : JNum → JNum
  | .finite q => .finite (q / 1000)
  | x => x

/-- `Math.round`: round half toward positive infinity on finite values;
NaN and the infinities are fixed points. -/
def jround : JNum → JNum
  | .finite q => .finite ((⌊q + 1/2⌋ : ℤ) : ℚ)
  | x => x

/-- `String.prototype.trim()`: strip leading and trailing whitespace. -/
def jsTrim (s : String) : String :=
  String.mk (((s.toList.dropWhile Char.isWhitespace).reverse.dropWhile
      Char.isWhitespace).reverse)

/-- Round-half-away-from-zero to an integer (the rounding mode named by the
specification). On JS numbers it is only compared against code output for
non-negative means, where it agrees with `Math.round`. -/
def roundHalfAwayFromZero (q : ℚ) : ℤ :=
  if 0 ≤ q then ⌊q + 1/2⌋ else -⌊-q + 1/2⌋

/-- Rounding to three decimal places, half away from zero
(the specification's description of `averageHz`). -/
def round3 (q : ℚ) : ℚ :=
  ((roundHalfAwayFromZero (q * 1000) : ℚ)) / 1000

/-- A stored frequency measurement (`FrequencyMeasurement` in
`smartFrequency.ts`); `metadata` is a bounded key-value map. -/
structure FrequencyMeasurement where
  userId : String
  frequencyHz : JNum
  signalType : String
  timestamp : ℤ
  metadata : List (String × String)
deriving DecidableEq, Repr

/-- The windowed-analytics response (`FrequencyAnalytics`). -/
structure FrequencyAnalytics where
  averageHz : JNum
  minHz : JNum
  maxHz : JNum
  sampleCount : ℕ
  signalType : String
  windowMinutes : ℤ
deriving DecidableEq, Repr

/-- The `frequencyHz` field of a request body: absent (`undefined`),
a JS number, or some non-number JS value. -/
inductive BodyVal where
  | undef
  | num (v : JNum)
  | nonNumber
deriving DecidableEq, Repr

/-- The JSON body of `POST /smart-frequency/measurements`. The route
destructures only `userId`, `frequencyHz`, `signalType` and `metadata`;
a `timestamp` field, if sent, is dropped. -/
structure IngestBody where
  userId : String
  frequencyHz : BodyVal
  signalType : String
  metadata : Option (List (String × String))
  timestamp : Option ℤ
deriving DecidableEq, Repr

/-- Result of the ingest route: `201` with the stored measurement, or an
error status with a message. -/
inductive PostResult where
  | created (m : FrequencyMeasurement)
  | error (status : ℕ) (msg : String)
deriving DecidableEq, Repr

/-- `POST /smart-frequency/measurements`: validate, then append to the
in-memory store. Returns the response together with the updated store. -/
def postMeasurement (store : List FrequencyMeasurement) (body : IngestBody)
    (now : ℤ) : PostResult × List FrequencyMeasurement :=
  if body.userId = "" ∨ jsTrim body.userId = "" ∨ body.frequencyHz = .undef ∨
      body.signalType = "" ∨ jsTrim body.signalType = "" then
    (.error 400 "userId, frequencyHz and signalType are required", store)
  else
    match body.frequencyHz with
    | .num v =>
      if jlt v (.finite 0) then
        (.error 400 "frequencyHz must be a non-negative number", store)
      else
        let m : FrequencyMeasurement :=
          { userId := body.userId, frequencyHz := v,
            signalType := body.signalType, timestamp := now,
            metadata := body.metadata.getD [] }
        (.created m, store ++ [m])
    | _ => (.error 400 "frequencyHz must be a non-negative number", store)

/-- The filter of `GET /smart-frequency/measurements`: keep measurements
matching the (optional) `userId` and `signalType` query parameters. -/
def measurementsSelect (store : List FrequencyMeasurement)
    (userIdQ signalTypeQ : Option String) : List FrequencyMeasurement :=
  store.filter (fun m =>
    (userIdQ.isNone || userIdQ == some m.userId) &&
    (signalTypeQ.isNone || signalTypeQ == some m.signalType))

/-- `GET /smart-frequency/measurements`: returns the filtered list and its
length, leaving the store untouched. -/
def measurementsRoute (store : List FrequencyMeasurement)
    (userIdQ signalTypeQ : Option String) :
    (List FrequencyMeasurement × ℕ) × List FrequencyMeasurement :=
  let filtered := measurementsSelect store userIdQ signalTypeQ
  ((filtered, filtered.length), store)

/-- The `/smart-frequency/status` response body. -/
structure StatusResponse where
  status : String
  feature : String
  timestamp : ℤ
  measurementCount : ℕ
deriving DecidableEq, Repr

/-- `GET /smart-frequency/status`. -/
def statusRoute (store : List FrequencyMeasurement) (now : ℤ) :
    StatusResponse × List FrequencyMeasurement :=
  ({ status := "active", feature := "SmartFrequency", timestamp := now,
     measurementCount := store.length }, store)

/-- `(req.query.signalType as string) || null`: an absent or empty-string
query parameter yields no filter. -/
def normalizeSignalType : Option String → Option String
  | some s => if s = "" then none else some s
  | none => none

/-- `Date.now() - windowMinutes * 60 * 1000`. -/
def analyticsCutoff (now w : ℤ) : ℤ := now - w * 60 * 1000

/-- The selection of the analytics route: measurements at or after the
cutoff whose signal type matches the (normalized) filter. -/
def analyticsSelect (store : List FrequencyMeasurement)
    (signalTypeQ : Option String) (w now : ℤ) : List FrequencyMeasurement :=
  let st := normalizeSignalType signalTypeQ
  store.filter (fun m =>
    decide (analyticsCutoff now w ≤ m.timestamp) &&
    (st.isNone || st == some m.signalType))

/-- `GET /smart-frequency/analytics`. `wm` is the result of
`parseInt(windowMinutes || '60', 10)`: `none` models NaN (an unparsable
parameter); an absent parameter arrives here as `some 60`. -/
def analyticsRoute (store : List FrequencyMeasurement)
    (signalTypeQ : Option String) (wm : Option ℤ) (now : ℤ) :
    Except (ℕ × String) FrequencyAnalytics × List FrequencyMeasurement :=
  match wm with
  | none =>
    (.error (400, "windowMinutes must be a number between 1 and 1440"), store)
  | some w =>
    if w ≤ 0 ∨ 1440 < w then
      (.error (400, "windowMinutes must be a number between 1 and 1440"),
       store)
    else
      let st := normalizeSignalType signalTypeQ
      let filtered := analyticsSelect store signalTypeQ w now
      if filtered.length = 0 then
        (.ok { averageHz := .finite 0, minHz := .finite 0, maxHz := .finite 0,
               sampleCount := 0, signalType := st.getD "all",
               windowMinutes := w }, store)
      else
        let freqs := filtered.map (·.frequencyHz)
        let averageHz := jdivNat (freqs.foldl jadd (.finite 0)) freqs.length
        (.ok { averageHz := jdiv1000 (jround (jmul1000 averageHz)),
               minHz := freqs.foldl jmin .posInf,
               maxHz := freqs.foldl jmax .negInf,
               sampleCount := filtered.length,
               signalType := st.getD "all",
               windowMinutes := w }, store)

/-- The claim-side acceptance condition for single-sample ingest, phrased
over the embedded body: ids non-empty after trimming and a JS number value
that is not negative under IEEE comparison. -/
def acceptsIngest (body : IngestBody) : Prop :=
  jsTrim body.userId ≠ "" ∧ jsTrim body.signalType ≠ "" ∧
  ∃ v, body.frequencyHz = .num v ∧ jlt v (.finite 0) = false

instance (body : IngestBody) : Decidable (acceptsIngest body) := by
  unfold acceptsIngest
  have : Decidable (∃ v, body.frequencyHz = .num v ∧
      jlt v (.finite 0) = false) := by
    cases h : body.frequencyHz with
    | num v =>
      cases hv : jlt v (.finite 0) with
      | false => exact .isTrue ⟨v, rfl, hv⟩
      | true =>
        refine .isFalse ?_
        rintro ⟨w, hw, hw2⟩
        cases hw
        rw [hv] at hw2
        cases hw2
    | undef =>
      refine .isFalse ?_
      rintro ⟨w, hw, _⟩
      cases hw
    | nonNumber =>
      refine .isFalse ?_
      rintro ⟨w, hw, _⟩
      cases hw
  exact instDecidableAnd

/-- States of the in-memory measurement store reachable through the public
operations. Only the ingest route writes; the read routes return the store
unchanged (proved separately), so ingest steps generate all states. -/
inductive Reachable : List FrequencyMeasurement → Prop where
  | nil : Reachable []
  | ingest (s : List FrequencyMeasurement) (body : IngestBody) (now : ℤ) :
      Reachable s → Reachable (postMeasurement s body now).2

/-- A row of the `biofeedback_metrics` table. `uuidv4()` is modelled by a
natural-number supply, so `id` is a natural number. -/
structure BiofeedbackMetric where
  id : ℕ
  userId : String
  metricType : String
  value : ℚ
  qualityScore : Option ℤ
  deviceId : Option String
  context : List (String × String)
  timestamp : ℤ
deriving DecidableEq, Repr

/-- Per-metric options of `createMetric`. -/
structure MetricOptions where
  qualityScore : Option ℤ
  deviceId : Option String
  context : Option (List (String × String))
deriving DecidableEq, Repr

/-- `createMetric`: build the row with a fresh id and the server timestamp,
insert it, return it together with the updated table and id supply. -/
def createMetric (db : List BiofeedbackMetric) (userId metricType : String)
    (value : ℚ) (opts : MetricOptions) (g : ℕ) (now : ℤ) :
    BiofeedbackMetric × List BiofeedbackMetric × ℕ :=
  let m : BiofeedbackMetric :=
    { id := g, userId := userId, metricType := metricType, value := value,
      qualityScore := opts.qualityScore, deviceId := opts.deviceId,
      context := opts.context.getD [], timestamp := now }
  (m, db ++ [m], g + 1)

/-- One element of the `batchCreateMetrics` input array. -/
structure BatchMetricInput where
  userId : String
  metricType : String
  value : ℚ
  qualityScore : Option ℤ
  deviceId : Option String
  context : Option (List (String × String))
  timestamp : Option ℤ
deriving DecidableEq, Repr

/-- The row built for the `i`-th batch element: a fresh id from the supply
and `metric.timestamp ?? new Date()`. -/
def batchRow (g : ℕ) (now : ℤ) (i : ℕ) (m : BatchMetricInput) :
    BiofeedbackMetric :=
  { id := g + i, userId := m.userId, metricType := m.metricType,
    value := m.value, qualityScore := m.qualityScore, deviceId := m.deviceId,
    context := m.context.getD [], timestamp := m.timestamp.getD now }

/-- `batchCreateMetrics`: an empty batch returns 0 without touching the
table; otherwise all rows are inserted by one multi-row `INSERT` statement
and the statement's row count is returned. -/
def batchCreateMetrics (db : List BiofeedbackMetric)
    (metrics : List BatchMetricInput) (g : ℕ) (now : ℤ) :
    ℕ × List BiofeedbackMetric × ℕ :=
  if metrics = [] then (0, db, g)
  else
    let rows := metrics.enum.map (fun p => batchRow g now p.1 p.2)
    (rows.length, db ++ rows, g + metrics.length)

/-- `time_bucket(g, t)`: truncate a timestamp down to a multiple of the
granularity (integer division rounding toward negative infinity). -/
def timeBucket (g t : ℤ) : ℤ := g * (t / g)

/-- A row of an aggregate view: `AVG`, `MIN`, `MAX`, `COUNT(*)`. -/
structure BucketRow where
  avgValue : ℚ
  minValue : ℚ
  maxValue : ℚ
  sampleCount : ℕ
deriving DecidableEq, Repr

/-- SQL aggregate functions over a group of values; an empty group produces
no row. -/
def statsOf : List ℚ → Option BucketRow
  | [] => none
  | v :: vs =>
    some { avgValue := (v :: vs).sum / ((vs.length + 1 : ℕ) : ℚ),
           minValue := vs.foldl min v,
           maxValue := vs.foldl max v,
           sampleCount := vs.length + 1 }

/-- The `biofeedback_5min_avg` continuous aggregate: one row per
`(user_id, metric_type, time_bucket('5 minutes', timestamp))` group.
Timestamps are in milliseconds, so the granularity is 300000. -/
def biofeedback5minRow (db : List BiofeedbackMetric) (u ty : String)
    (b : ℤ) : Option BucketRow :=
  statsOf ((db.filter (fun s =>
    decide (s.userId = u) && decide (s.metricType = ty) &&
    decide (timeBucket 300000 s.timestamp = b))).map (·.value))

/-- The statistics computed directly over the samples whose timestamp lies
in the half-open interval of the bucket — the specification's description
of what a maintained bucket must equal. -/
def bucketDirectRow (db : List BiofeedbackMetric) (u ty : String)
    (g b : ℤ) : Option BucketRow :=
  statsOf ((db.filter (fun s =>
    decide (s.userId = u) && decide (s.metricType = ty) &&
    decide (b ≤ s.timestamp) && decide (s.timestamp < b + g))).map (·.value))

/-- A request to one of the four smart-frequency endpoints. -/
inductive SFRequest where
  | status
  | listMeasurements (userIdQ signalTypeQ : Option String)
  | ingest (body : IngestBody)
  | analytics (signalTypeQ : Option String) (wm : Option ℤ)
deriving DecidableEq, Repr

/-- The request path of each endpoint. -/
def sfPath : SFRequest → String
  | .status => "/smart-frequency/status"
  | .listMeasurements _ _ => "/smart-frequency/measurements"
  | .ingest _ => "/smart-frequency/measurements"
  | .analytics _ _ => "/smart-frequency/analytics"

/-- The status/error summary of an HTTP response. -/
structure GatewayResponse where
  status : ℕ
  error : Option String
deriving DecidableEq, Repr

/-- The application dispatch of `src/index.ts`: when the biofeedback
feature flag is on, requests reach the smart-frequency router; when it is
off, every path under the `/smart-frequency` mount is answered by the 503
handler. -/
def appDispatch (enableBiofeedback : Bool) (r : SFRequest)
    (store : List FrequencyMeasurement) (now : ℤ) :
    GatewayResponse × List FrequencyMeasurement :=
  if enableBiofeedback then
    match r with
    | .status => ({ status := 200, error := none }, (statusRoute store now).2)
    | .listMeasurements u t =>
      ({ status := 200, error := none }, (measurementsRoute store u t).2)
    | .ingest body =>
      match postMeasurement store body now with
      | (.created _, s') => ({ status := 201, error := none }, s')
      | (.error c msg, s') => ({ status := c, error := some msg }, s')
    | .analytics stq wm =>
      match (analyticsRoute store stq wm now).1 with
      | .ok _ => ({ status := 200, error := none }, store)
      | .error (c, msg) => ({ status := c, error := some msg }, store)
  else if (sfPath r == "/smart-frequency") ||
      ("/smart-frequency/".toList.isPrefixOf (sfPath r).toList) then
    ({ status := 503, error := some "SmartFrequency feature is disabled" },
     store)
  else
    ({ status := 404, error := some "Not Found" }, store)

/-- Example store: the spec's end-to-end example, three `eeg` measurements
of 10, 20 and 30 Hz. -/
def exStore : List FrequencyMeasurement :=
  [ { userId := "u1", frequencyHz := .finite 10, signalType := "eeg",
      timestamp := 0, metadata := [] },
    { userId := "u1", frequencyHz := .finite 20, signalType := "eeg",
      timestamp := 0, metadata := [] },
    { userId := "u2", frequencyHz := .finite 30, signalType := "eeg",
      timestamp := 0, metadata := [] } ]

/-- Counterexample store: a single measurement of 0.0004 Hz. -/
def cexStore : List FrequencyMeasurement :=
  [ { userId := "u1", frequencyHz := .finite (1/2500), signalType := "eeg",
      timestamp := 0, metadata := [] } ]

/-- A body with `frequencyHz = -1`. -/
def bodyNeg1 : IngestBody :=
  { userId := "u1", frequencyHz := .num (.finite (-1)), signalType := "eeg",
    metadata := none, timestamp := none }

/-- A body with `frequencyHz = 0`. -/
def bodyZero : IngestBody :=
  { userId := "u1", frequencyHz := .num (.finite 0), signalType := "eeg",
    metadata := none, timestamp := none }

/-- A body with `frequencyHz = NaN`. -/
def bodyNaN : IngestBody :=
  { userId := "u1", frequencyHz := .num .nan, signalType := "eeg",
    metadata := none, timestamp := none }

/-- A valid body that also carries an explicit caller timestamp. -/
def bodyWithTimestamp : IngestBody :=
  { userId := "u1", frequencyHz := .num (.finite 5), signalType := "eeg",
    metadata := none, timestamp := some 12345 }

/-- A batch element that violates the ingestion constraints: empty
`userId`. -/
def badBatchInput : BatchMetricInput :=
  { userId := "", metricType := "heart_rate", value := -1,
    qualityScore := none, deviceId := none, context := none,
    timestamp := none }

/-- The measurement stored by ingesting `bodyZero` at server time 0. -/
def mZero : FrequencyMeasurement :=
  { userId := "u1", frequencyHz := .finite 0, signalType := "eeg",
    timestamp := 0, metadata := [] }

/-- Raw samples at `t0 .. t0 + 4min` (t0 = 0) with values 1..5, all for the
same user and metric type: the spec's 5-minute-bucket example. -/
def exBucketDb : List BiofeedbackMetric :=
  [ { id := 0, userId := "u1", metricType := "heart_rate", value := 1,
      qualityScore := none, deviceId := none, context := [], timestamp := 0 },
    { id := 1, userId := "u1", metricType := "heart_rate", value := 2,
      qualityScore := none, deviceId := none, context := [],
      timestamp := 60000 },
    { id := 2, userId := "u1", metricType := "heart_rate", value := 3,
      qualityScore := none, deviceId := none, context := [],
      timestamp := 120000 },
    { id := 3, userId := "u1", metricType := "heart_rate", value := 4,
      qualityScore := none, deviceId := none, context := [],
      timestamp := 180000 },
    { id := 4, userId := "u1", metricType := "heart_rate", value := 5,
      qualityScore := none, deviceId := none, context := [],
      timestamp := 240000 } ]

/-! ### Helper lemmas -/

theorem jsTrim_empty : jsTrim "" = "" := rfl

theorem foldl_jadd_finite (l : List ℚ) (a : ℚ) :
    (l.map JNum.finite).foldl jadd (.finite a) = .finite (a + l.sum) := by
  induction l generalizing a with
  | nil => simp
  | cons x xs ih => simp [jadd, ih, add_assoc]

theorem foldl_jmin_finite (l : List ℚ) (a : ℚ) :
    (l.map JNum.finite).foldl jmin (.finite a) = .finite (l.foldl min a) := by
  induction l generalizing a with
  | nil => simp
  | cons x xs ih => simp [jmin, ih]

theorem foldl_jmax_finite (l : List ℚ) (a : ℚ) :
    (l.map JNum.finite).foldl jmax (.finite a) = .finite (l.foldl max a) := by
  induction l generalizing a with
  | nil => simp
  | cons x xs ih => simp [jmax, ih]

theorem foldl_min_le_init (l : List ℚ) (a : ℚ) : l.foldl min a ≤ a := by
  induction l generalizing a with
  | nil => simp
  | cons x xs ih => exact le_trans (ih (min a x)) (min_le_left a x)

theorem foldl_min_le_mem {x : ℚ} {l : List ℚ} (a : ℚ) (hx : x ∈ l) :
    l.foldl min a ≤ x := by
  induction l generalizing a with
  | nil => cases hx
  | cons y ys ih =>
    rcases List.mem_cons.mp hx with h | h
    · subst h
      exact le_trans (foldl_min_le_init ys (min a x)) (min_le_right a x)
    · exact ih _ h

theorem le_foldl_max_init (l : List ℚ) (a : ℚ) : a ≤ l.foldl max a := by
  induction l generalizing a with
  | nil => simp
  | cons x xs ih => exact le_trans (le_max_left a x) (ih (max a x))

theorem le_foldl_max_mem {x : ℚ} {l : List ℚ} (a : ℚ) (hx : x ∈ l) :
    x ≤ l.foldl max a := by
  induction l generalizing a with
  | nil => cases hx
  | cons y ys ih =>
    rcases List.mem_cons.mp hx with h | h
    · subst h
      exact le_trans (le_max_right a x) (le_foldl_max_init ys (max a x))
    · exact ih _ h

theorem card_mul_le_sum (l : List ℚ) (c : ℚ) (h : ∀ x ∈ l, c ≤ x) :
    c * l.length ≤ l.sum := by
  induction l with
  | nil => simp
  | cons x xs ih =>
    have hx := h x (List.mem_cons_self x xs)
    have hxs := ih (fun y hy => h y (List.mem_cons_of_mem x hy))
    simp only [List.sum_cons, List.length_cons]
    push_cast
    nlinarith

theorem sum_le_card_mul (l : List ℚ) (c : ℚ) (h : ∀ x ∈ l, x ≤ c) :
    l.sum ≤ c * l.length := by
  induction l with
  | nil => simp
  | cons x xs ih =>
    have hx := h x (List.mem_cons_self x xs)
    have hxs := ih (fun y hy => h y (List.mem_cons_of_mem x hy))
    simp only [List.sum_cons, List.length_cons]
    push_cast
    nlinarith

theorem round3_bounds (x : ℚ) (hx : 0 ≤ x) :
    x - 1/2000 ≤ round3 x ∧ round3 x ≤ x + 1/2000 := by
  have hpos : (0:ℚ) ≤ x * 1000 := by positivity
  have hfl : round3 x = ((⌊x * 1000 + 1/2⌋ : ℤ) : ℚ) / 1000 := by
    rw [round3, roundHalfAwayFromZero, if_pos hpos]
  constructor
  · rw [hfl, le_div_iff₀ (by norm_num : (0:ℚ) < 1000)]
    have := Int.sub_one_lt_floor (x * 1000 + 1/2)
    have h2 : x * 1000 - 1/2 ≤ ((⌊x * 1000 + 1/2⌋ : ℤ) : ℚ) := by linarith
    linarith
  · rw [hfl, div_le_iff₀ (by norm_num : (0:ℚ) < 1000)]
    have := Int.floor_le (x * 1000 + 1/2)
    linarith

/-- Case analysis of the ingest route: a request is either accepted — the
built measurement is appended and echoed — or rejected with a 400 error and
an unchanged store, and acceptance is exactly `acceptsIngest`. -/
theorem postMeasurement_cases (store : List FrequencyMeasurement)
    (body : IngestBody) (now : ℤ) :
    (acceptsIngest body ∧ ∃ m, postMeasurement store body now
        = (.created m, store ++ [m])
      ∧ m.userId = body.userId ∧ m.signalType = body.signalType
      ∧ m.timestamp = now ∧ m.metadata = body.metadata.getD []
      ∧ ∃ v, body.frequencyHz = .num v ∧ m.frequencyHz = v
        ∧ jlt v (.finite 0) = false)
    ∨ (¬ acceptsIngest body ∧ ∃ msg, postMeasurement store body now
        = (.error 400 msg, store)) := by
  obtain ⟨u, fz, st, md, ts⟩ := body
  by_cases h1 : u = "" ∨ jsTrim u = "" ∨ fz = BodyVal.undef ∨ st = "" ∨
      jsTrim st = ""
  · right
    constructor
    · rintro ⟨hu, ht, v, hv, _⟩
      simp only at hu ht hv
      rcases h1 with h | h | h | h | h
      · exact hu (by rw [h, jsTrim_empty])
      · exact hu h
      · rw [h] at hv
        cases hv
      · exact ht (by rw [h, jsTrim_empty])
      · exact ht h
    · exact ⟨_, by rw [postMeasurement, if_pos h1]⟩
  · push_neg at h1
    obtain ⟨hu0, hu, hfz, ht0, ht⟩ := h1
    have hif : ¬ (u = "" ∨ jsTrim u = "" ∨ fz = BodyVal.undef ∨ st = "" ∨
        jsTrim st = "") := by
      push_neg
      exact ⟨hu0, hu, hfz, ht0, ht⟩
    cases fz with
    | undef => exact absurd rfl hfz
    | nonNumber =>
      right
      constructor
      · rintro ⟨_, _, v, hv, _⟩
        simp only at hv
        cases hv
      · exact ⟨"frequencyHz must be a non-negative number",
          by simp [postMeasurement, hu0, hu, ht0, ht]⟩
    | num v =>
      by_cases h2 : jlt v (.finite 0) = true
      · right
        constructor
        · rintro ⟨_, _, w, hw, hw0⟩
          simp only [BodyVal.num.injEq] at hw
          rw [← hw, h2] at hw0
          cases hw0
        · exact ⟨"frequencyHz must be a non-negative number",
            by simp [postMeasurement, hu0, hu, ht0, ht, h2]⟩
      · rw [Bool.not_eq_true] at h2
        left
        refine ⟨⟨hu, ht, v, rfl, h2⟩, ?_⟩
        refine ⟨{ userId := u, frequencyHz := v, signalType := st,
                  timestamp := now, metadata := md.getD [] },
                ?_, rfl, rfl, rfl, rfl, v, rfl, rfl, h2⟩
        simp [postMeasurement, hu0, hu, ht0, ht, h2]

/-- The analytics route never writes to the store. -/
theorem analyticsRoute_snd (store : List FrequencyMeasurement)
    (stq : Option String) (wm : Option ℤ) (now : ℤ) :
    (analyticsRoute store stq wm now).2 = store := by
  unfold analyticsRoute
  cases wm with
  | none => rfl
  | some w =>
    dsimp only
    split
    · rfl
    · split <;> rfl

/-- `batchCreateMetrics` in closed form: the returned count is the full
batch length, every row (valid or not) is appended, and the id supply
advances by the batch length. -/
theorem batchCreateMetrics_eq (db : List BiofeedbackMetric)
    (metrics : List BatchMetricInput) (g : ℕ) (now : ℤ) :
    batchCreateMetrics db metrics g now
      = (metrics.length, db ++ metrics.enum.map (fun p => batchRow g now p.1 p.2),
         g + metrics.length) := by
  by_cases h : metrics = []
  · subst h
    simp [batchCreateMetrics]
  · simp [batchCreateMetrics, h]

/-- Characterization of 5-minute `time_bucket` membership: a timestamp
truncates to an aligned bucket start `b` exactly when it lies in
`[b, b + 300000)`. -/
theorem timeBucket5min_eq_iff (t b : ℤ) (hb : timeBucket 300000 b = b) :
    timeBucket 300000 t = b ↔ b ≤ t ∧ t < b + 300000 := by
  unfold timeBucket at *
  omega

/-! ### Claim theorems -/

/-- C2: for a valid window whose selection is empty, the analytics route
returns all-zero statistics with `sampleCount = 0` (echoing the filter or
"all"), never an error, and leaves the store unchanged. -/
theorem analytics_empty_window (store : List FrequencyMeasurement)
    (stq : Option String) (w now : ℤ) (hw1 : 0 < w) (hw2 : w ≤ 1440)
    (hsel : analyticsSelect store stq w now = []) :
    analyticsRoute store stq (some w) now
      = (.ok { averageHz := .finite 0, minHz := .finite 0,
               maxHz := .finite 0, sampleCount := 0,
               signalType := (normalizeSignalType stq).getD "all",
               windowMinutes := w }, store) := by
  simp only [analyticsRoute]
  rw [if_neg (by omega)]
  simp [hsel]

/-- Witness for C2 at a concrete empty store. -/
theorem analytics_empty_window_witness :
    (0:ℤ) < 60 ∧ (60:ℤ) ≤ 1440 ∧ analyticsSelect [] none 60 0 = []
    ∧ analyticsRoute [] none (some 60) 0
      = (.ok { averageHz := .finite 0, minHz := .finite 0,
               maxHz := .finite 0, sampleCount := 0, signalType := "all",
               windowMinutes := 60 }, []) :=
  ⟨by decide, by decide, rfl,
   analytics_empty_window [] none 60 0 (by decide) (by decide) rfl⟩

/-- C7: the analytics route rejects the window parameter with the 400
validation error exactly when it is NaN (`none`) or outside `(0, 1440]`;
in particular 0, 1441 and NaN are rejected while 1 and 1440 are accepted. -/
theorem analytics_window_validation :
    (∀ (store : List FrequencyMeasurement) (stq : Option String)
       (wm : Option ℤ) (now : ℤ),
      (analyticsRoute store stq wm now).1
          = .error (400, "windowMinutes must be a number between 1 and 1440")
        ↔ wm = none ∨ ∃ w, wm = some w ∧ (w ≤ 0 ∨ 1440 < w))
    ∧ (analyticsRoute [] none (some 0) 0).1
        = .error (400, "windowMinutes must be a number between 1 and 1440")
    ∧ (analyticsRoute [] none (some 1441) 0).1
        = .error (400, "windowMinutes must be a number between 1 and 1440")
    ∧ (analyticsRoute [] none none 0).1
        = .error (400, "windowMinutes must be a number between 1 and 1440")
    ∧ (analyticsRoute [] none (some 1) 0).1
        = .ok { averageHz := .finite 0, minHz := .finite 0,
                maxHz := .finite 0, sampleCount := 0, signalType := "all",
                windowMinutes := 1 }
    ∧ (analyticsRoute [] none (some 1440) 0).1
        = .ok { averageHz := .finite 0, minHz := .finite 0,
                maxHz := .finite 0, sampleCount := 0, signalType := "all",
                windowMinutes := 1440 } := by
  refine ⟨?_, by decide, by decide, by decide, by decide, by decide⟩
  intro store stq wm now
  cases wm with
  | none => simp [analyticsRoute]
  | some w =>
    by_cases h : w ≤ 0 ∨ 1440 < w
    · simp only [analyticsRoute]
      rw [if_pos h]
      simp [h]
    · simp only [analyticsRoute]
      rw [if_neg h]
      constructor
      · intro hc
        by_cases h2 : (analyticsSelect store stq w now).length = 0 <;>
          simp [h2] at hc
      · rintro (hn | ⟨w', hw', hcond⟩)
        · cases hn
        · cases hw'
          exact absurd hcond h

/-- C9: with the biofeedback feature flag off, every smart-frequency
endpoint is answered by the 503 handler with the descriptive message, and
the store is never touched. -/
theorem feature_disabled_503 (r : SFRequest)
    (store : List FrequencyMeasurement) (now : ℤ) :
    appDispatch false r store now
      = ({ status := 503,
           error := some "SmartFrequency feature is disabled" }, store) := by
  cases r <;> rfl

/-- C3 counterexample: `frequencyHz = NaN` is not a finite number, yet the
ingest route accepts it and writes the measurement (the code checks only
`typeof` and `< 0`, and both IEEE comparisons with NaN are false). -/
theorem ingest_accepts_nan :
    postMeasurement [] bodyNaN 5
      = (.created { userId := "u1", frequencyHz := .nan, signalType := "eeg",
                    timestamp := 5, metadata := [] },
         [{ userId := "u1", frequencyHz := .nan, signalType := "eeg",
            timestamp := 5, metadata := [] }]) := by
  decide

/-- C3 (amended): the ingest route rejects with a 400 validation error and
writes nothing exactly when the user id or signal type is empty after
trimming, the value is absent or not of number type, or the value is
negative under IEEE comparison (so NaN and +Infinity are accepted);
in particular `-1` is rejected and `0` is accepted. -/
theorem ingest_validation_exact :
    (∀ (store : List FrequencyMeasurement) (body : IngestBody) (now : ℤ),
      ((postMeasurement store body now).2 = store ↔ ¬ acceptsIngest body)
      ∧ ((∃ m, (postMeasurement store body now).1 = .created m
            ∧ (postMeasurement store body now).2 = store ++ [m])
          ↔ acceptsIngest body)
      ∧ ((∃ msg, (postMeasurement store body now).1 = .error 400 msg)
          ↔ ¬ acceptsIngest body))
    ∧ (postMeasurement [] bodyNeg1 0).1
        = .error 400 "frequencyHz must be a non-negative number"
    ∧ (∃ m, (postMeasurement [] bodyZero 0).1 = .created m
        ∧ m.frequencyHz = .finite 0) := by
  refine ⟨?_, by decide, ⟨mZero, by decide, rfl⟩⟩
  intro store body now
  rcases postMeasurement_cases store body now with
    ⟨hacc, m, heq, _⟩ | ⟨hrej, msg, heq⟩
  · refine ⟨?_, ?_, ?_⟩
    · refine iff_of_false ?_ (fun hn => hn hacc)
      intro h
      rw [heq] at h
      have := congrArg List.length h
      simp at this
    · exact iff_of_true ⟨m, by rw [heq], by rw [heq]⟩ hacc
    · refine iff_of_false ?_ (fun hn => hn hacc)
      rintro ⟨msg, hmsg⟩
      rw [heq] at hmsg
      cases hmsg
  · refine ⟨iff_of_true (by rw [heq]) hrej, ?_, ?_⟩
    · refine iff_of_false ?_ hrej
      rintro ⟨m, hm, _⟩
      rw [heq] at hm
      cases hm
    · exact iff_of_true ⟨msg, by rw [heq]⟩ hrej

/-- C4 counterexample: a batch containing a sample that violates the
ingestion constraints (empty entity id, negative value) is nevertheless
written in full and counted as successfully written, with no validation
error; so batch ingest neither validates per sample nor caps batches. -/
theorem batch_writes_invalid_sample :
    batchCreateMetrics [] [badBatchInput] 0 7
      = (1, [{ id := 0, userId := "", metricType := "heart_rate",
               value := -1, qualityScore := none, deviceId := none,
               context := [], timestamp := 7 }], 1)
    ∧ jsTrim badBatchInput.userId = "" ∧ badBatchInput.value < 0 := by
  decide

/-- C4 (amended): batch ingest performs no per-sample validation and has no
batch-size cap: for every batch (of any size and content) all rows are
appended by a single insert, the returned count is the full batch length,
and an empty batch returns 0 without writing. -/
theorem batch_ingest_uncapped :
    (∀ (db : List BiofeedbackMetric) (metrics : List BatchMetricInput)
       (g : ℕ) (now : ℤ),
      batchCreateMetrics db metrics g now
        = (metrics.length,
           db ++ metrics.enum.map (fun p => batchRow g now p.1 p.2),
           g + metrics.length))
    ∧ batchCreateMetrics [] [] 0 0 = (0, [], 0) :=
  ⟨batchCreateMetrics_eq, by decide⟩

/-- C5: ingesting a valid sample and immediately listing with filters
matching its user id and signal type returns the stored sample unchanged,
appended after any previously matching measurements; when no other
measurement matched, the result is exactly that one sample with total 1. -/
theorem ingest_list_roundtrip (store : List FrequencyMeasurement)
    (body : IngestBody) (now : ℤ) (hacc : acceptsIngest body) :
    ∃ m, postMeasurement store body now = (.created m, store ++ [m])
      ∧ m.userId = body.userId ∧ m.signalType = body.signalType
      ∧ m.timestamp = now ∧ m.metadata = body.metadata.getD []
      ∧ (∀ v, body.frequencyHz = .num v → m.frequencyHz = v)
      ∧ (measurementsRoute (store ++ [m]) (some body.userId)
           (some body.signalType)).1
          = (measurementsSelect store (some body.userId)
               (some body.signalType) ++ [m],
             (measurementsSelect store (some body.userId)
               (some body.signalType)).length + 1)
      ∧ (measurementsSelect store (some body.userId) (some body.signalType)
            = [] →
          (measurementsRoute (store ++ [m]) (some body.userId)
             (some body.signalType)).1 = ([m], 1)) := by
  rcases postMeasurement_cases store body now with
    ⟨_, m, heq, hmu, hmt, hts, hmd, v, hv, hmv, _⟩ | ⟨hrej, _⟩
  · have hfil : measurementsSelect (store ++ [m]) (some body.userId)
        (some body.signalType)
        = measurementsSelect store (some body.userId)
            (some body.signalType) ++ [m] := by
      unfold measurementsSelect
      rw [List.filter_append]
      congr 1
      simp [hmu, hmt]
    refine ⟨m, heq, hmu, hmt, hts, hmd, ?_, ?_, ?_⟩
    · intro w hw
      rw [hv] at hw
      cases hw
      exact hmv
    · simp [measurementsRoute, hfil]
    · intro hempty
      simp [measurementsRoute, hfil, hempty]
  · exact absurd hacc hrej

/-- Witness for C5: ingest `bodyZero` into the empty store and read it
back. -/
theorem ingest_list_roundtrip_witness :
    acceptsIngest bodyZero
    ∧ ∃ m, postMeasurement [] bodyZero 0 = (.created m, [] ++ [m])
      ∧ m.userId = bodyZero.userId ∧ m.signalType = bodyZero.signalType
      ∧ m.timestamp = 0 ∧ m.metadata = bodyZero.metadata.getD []
      ∧ (∀ v, bodyZero.frequencyHz = .num v → m.frequencyHz = v)
      ∧ (measurementsRoute ([] ++ [m]) (some bodyZero.userId)
           (some bodyZero.signalType)).1
          = (measurementsSelect [] (some bodyZero.userId)
               (some bodyZero.signalType) ++ [m],
             (measurementsSelect [] (some bodyZero.userId)
               (some bodyZero.signalType)).length + 1)
      ∧ (measurementsSelect [] (some bodyZero.userId)
            (some bodyZero.signalType) = [] →
          (measurementsRoute ([] ++ [m]) (some bodyZero.userId)
             (some bodyZero.signalType)).1 = ([m], 1)) :=
  ⟨by decide, ingest_list_roundtrip [] bodyZero 0 (by decide)⟩

/-- C6 counterexample: the single-sample ingest route ignores a
caller-supplied timestamp — the stored measurement carries the server time
99999 although the body supplied 12345 — and the stored record carries no
sample id at all (its fields are exactly userId, frequencyHz, signalType,
timestamp and metadata). -/
theorem ingest_ignores_caller_timestamp :
    postMeasurement [] bodyWithTimestamp 99999
      = (.created { userId := "u1", frequencyHz := .finite 5,
                    signalType := "eeg", timestamp := 99999,
                    metadata := [] },
         [{ userId := "u1", frequencyHz := .finite 5, signalType := "eeg",
            timestamp := 99999, metadata := [] }])
    ∧ bodyWithTimestamp.timestamp = some 12345
    ∧ (99999 : ℤ) ≠ 12345 := by
  decide

/-- C6 (amended): the smart-frequency ingest always stamps the server's
current time (ignoring any caller-supplied timestamp, and storing no sample
id); in the biofeedback service, `createMetric` assigns a fresh id from the
supply and always the server timestamp, and `batchCreateMetrics` assigns
pairwise-distinct fresh ids and uses the caller timestamp when supplied,
the server time otherwise. -/
theorem ids_and_timestamps :
    (∀ (store : List FrequencyMeasurement) (body : IngestBody) (now : ℤ)
       (m : FrequencyMeasurement),
      (postMeasurement store body now).1 = .created m → m.timestamp = now)
    ∧ (∀ (db : List BiofeedbackMetric) (u ty : String) (val : ℚ)
         (opts : MetricOptions) (g : ℕ) (now : ℤ),
        (createMetric db u ty val opts g now).1.id = g
        ∧ (createMetric db u ty val opts g now).1.timestamp = now
        ∧ (createMetric db u ty val opts g now).2.1
            = db ++ [(createMetric db u ty val opts g now).1]
        ∧ (createMetric db u ty val opts g now).2.2 = g + 1)
    ∧ (∀ (db : List BiofeedbackMetric) (metrics : List BatchMetricInput)
         (g : ℕ) (now : ℤ),
        (batchCreateMetrics db metrics g now).2.1
            = db ++ metrics.enum.map (fun p => batchRow g now p.1 p.2)
        ∧ (metrics.enum.map (fun p => (batchRow g now p.1 p.2).id)).Nodup
        ∧ ∀ p ∈ metrics.enum,
            (batchRow g now p.1 p.2).timestamp = p.2.timestamp.getD now) := by
  refine ⟨?_, fun db u ty val opts g now => ⟨rfl, rfl, rfl, rfl⟩, ?_⟩
  · intro store body now m hm
    rcases postMeasurement_cases store body now with
      ⟨_, m', heq, _, _, hts, _⟩ | ⟨_, msg, heq⟩
    · rw [heq] at hm
      cases hm
      exact hts
    · rw [heq] at hm
      cases hm
  · intro db metrics g now
    refine ⟨by rw [batchCreateMetrics_eq], ?_, fun p _ => rfl⟩
    have hmap : metrics.enum.map (fun p => (batchRow g now p.1 p.2).id)
        = (List.range metrics.length).map (g + ·) := by
      have h1 : metrics.enum.map (fun p => (batchRow g now p.1 p.2).id)
          = metrics.enum.map (fun p => g + p.1) := rfl
      have h2 : (fun p : ℕ × BatchMetricInput => g + p.1)
          = (fun n => g + n) ∘ Prod.fst := rfl
      rw [h1, h2, ← List.map_map, List.enum_map_fst]
    rw [hmap]
    exact List.Nodup.map (fun a b h => by omega)
      (List.nodup_range metrics.length)

/-- Witness for C6: the created measurement at a concrete input carries the
server time. -/
theorem ids_and_timestamps_witness :
    (postMeasurement [] bodyZero 0).1 = .created mZero
    ∧ mZero.timestamp = 0 :=
  ⟨by decide, ids_and_timestamps.1 [] bodyZero 0 mZero (by decide)⟩

/-- C8: an aligned 5-minute bucket of the `biofeedback_5min_avg` aggregate
equals the statistics computed directly over exactly the samples (same user
and metric type) whose timestamp lies in `[bucketStart, bucketStart + 5min)`;
in particular, for samples at `t0 .. t0 + 4min` with values 1..5 the bucket
row is avg 3, min 1, max 5, count 5 — direct computation. -/
theorem bucket_stats_match (db : List BiofeedbackMetric) (u ty : String)
    (b : ℤ) (hb : timeBucket 300000 b = b) :
    biofeedback5minRow db u ty b = bucketDirectRow db u ty 300000 b
    ∧ biofeedback5minRow exBucketDb "u1" "heart_rate" 0
        = some { avgValue := 3, minValue := 1, maxValue := 5,
                 sampleCount := 5 }
    ∧ bucketDirectRow exBucketDb "u1" "heart_rate" 300000 0
        = some { avgValue := 3, minValue := 1, maxValue := 5,
                 sampleCount := 5 } := by
  refine ⟨?_, ?_, ?_⟩
  · unfold biofeedback5minRow bucketDirectRow
    congr 2
    apply List.filter_congr
    intro s _
    by_cases hle : b ≤ s.timestamp <;>
      by_cases hlt : s.timestamp < b + 300000 <;>
        simp [timeBucket5min_eq_iff s.timestamp b hb, hle, hlt]
  · norm_num [biofeedback5minRow, exBucketDb, statsOf, timeBucket,
      List.filter, min_def, max_def]
  · norm_num [bucketDirectRow, exBucketDb, statsOf, List.filter,
      min_def, max_def]

/-- Witness for C8 at the spec's concrete 5-minute bucket. -/
theorem bucket_stats_match_witness :
    timeBucket 300000 0 = 0
    ∧ biofeedback5minRow exBucketDb "u1" "heart_rate" 0
        = bucketDirectRow exBucketDb "u1" "heart_rate" 300000 0 :=
  ⟨by decide, (bucket_stats_match exBucketDb "u1" "heart_rate" 0
    (by decide)).1⟩

/-- C10: in every reachable store state, each measurement has a userId and
signalType that are non-empty after trimming and a frequencyHz that is not
negative; the list, status and analytics operations never change the store,
and ingest either leaves it unchanged or appends exactly one measurement,
preserving all previously stored ones. -/
theorem store_invariant_append_only (s : List FrequencyMeasurement)
    (hs : Reachable s) :
    (∀ m ∈ s, jsTrim m.userId ≠ "" ∧ jsTrim m.signalType ≠ ""
      ∧ jlt m.frequencyHz (.finite 0) = false)
    ∧ (∀ u t, (measurementsRoute s u t).2 = s)
    ∧ (∀ now, (statusRoute s now).2 = s)
    ∧ (∀ stq wm now, (analyticsRoute s stq wm now).2 = s)
    ∧ (∀ body now, (postMeasurement s body now).2 = s
        ∨ ∃ m, (postMeasurement s body now).2 = s ++ [m]) := by
  refine ⟨?_, fun u t => rfl, fun now => rfl,
    fun stq wm now => analyticsRoute_snd s stq wm now, fun body now => ?_⟩
  · induction hs with
    | nil =>
      intro m hm
      cases hm
    | ingest s' body now hr ih =>
      rcases postMeasurement_cases s' body now with
        ⟨⟨hu, ht, _⟩, m, heq, hmu, hmt, _, _, v, hv, hmv, hv0⟩ |
        ⟨_, msg, heq⟩
      · rw [heq]
        intro x hx
        rcases List.mem_append.mp hx with hx | hx
        · exact ih x hx
        · have hxm := List.mem_singleton.mp hx
          subst hxm
          refine ⟨by rw [hmu]; exact hu, by rw [hmt]; exact ht, ?_⟩
          rw [hmv]
          exact hv0
      · rw [heq]
        exact ih
  · rcases postMeasurement_cases s body now with
      ⟨_, m, heq, _⟩ | ⟨_, msg, heq⟩
    · exact Or.inr ⟨m, by rw [heq]⟩
    · exact Or.inl (by rw [heq])

/-- Witness for C10 at the concrete store reached by one ingest. -/
theorem store_invariant_append_only_witness :
    (∀ m ∈ [mZero], jsTrim m.userId ≠ "" ∧ jsTrim m.signalType ≠ ""
      ∧ jlt m.frequencyHz (.finite 0) = false)
    ∧ (∀ u t, (measurementsRoute [mZero] u t).2 = [mZero])
    ∧ (∀ now, (statusRoute [mZero] now).2 = [mZero])
    ∧ (∀ stq wm now, (analyticsRoute [mZero] stq wm now).2 = [mZero])
    ∧ (∀ body now, (postMeasurement [mZero] body now).2 = [mZero]
        ∨ ∃ m, (postMeasurement [mZero] body now).2 = [mZero] ++ [m]) :=
  store_invariant_append_only [mZero]
    (Reachable.ingest [] bodyZero 0 Reachable.nil)

/-- C1 counterexample: with a single in-window measurement of value
1/2500 Hz (= 0.0004), the analytics route returns `averageHz = 0` — the
correctly rounded mean — which is strictly below `minHz = 1/2500`, so
`minHz ≤ averageHz` fails as stated. -/
theorem analytics_average_below_min :
    (analyticsRoute cexStore none (some 60) 0).1
      = .ok { averageHz := .finite 0, minHz := .finite (1/2500),
              maxHz := .finite (1/2500), sampleCount := 1,
              signalType := "all", windowMinutes := 60 }
    ∧ ¬ ((1/2500 : ℚ) ≤ 0) := by
  constructor
  · norm_num [analyticsRoute, analyticsSelect, analyticsCutoff, cexStore,
      normalizeSignalType, jdivNat, jdiv1000, jmul1000, jround, jadd,
      jmin, jmax, List.filter]
  · norm_num

/-- C1 (amended): for a valid window whose selection is non-empty and
consists of finite non-negative values, the analytics route returns the
exact minimum, maximum and count, and `averageHz` equals the true mean
rounded to 3 decimals half-away-from-zero; the unrounded mean lies between
`minHz` and `maxHz`, and `averageHz` lies between `minHz - 1/2000` and
`maxHz + 1/2000` (rounding can push it past the extremes by at most
0.0005). -/
theorem analytics_nonempty_stats (store : List FrequencyMeasurement)
    (stq : Option String) (w now : ℤ) (v : ℚ) (vs : List ℚ)
    (hw1 : 0 < w) (hw2 : w ≤ 1440)
    (hsel : (analyticsSelect store stq w now).map (·.frequencyHz)
        = (v :: vs).map JNum.finite)
    (hnn : ∀ x ∈ v :: vs, (0:ℚ) ≤ x) :
    ((analyticsRoute store stq (some w) now).1
      = .ok { averageHz := .finite (round3 ((v :: vs).sum
                / ((vs.length + 1 : ℕ) : ℚ))),
              minHz := .finite (vs.foldl min v),
              maxHz := .finite (vs.foldl max v),
              sampleCount := vs.length + 1,
              signalType := (normalizeSignalType stq).getD "all",
              windowMinutes := w })
    ∧ vs.foldl min v ≤ (v :: vs).sum / ((vs.length + 1 : ℕ) : ℚ)
    ∧ (v :: vs).sum / ((vs.length + 1 : ℕ) : ℚ) ≤ vs.foldl max v
    ∧ vs.foldl min v - 1/2000
        ≤ round3 ((v :: vs).sum / ((vs.length + 1 : ℕ) : ℚ))
    ∧ round3 ((v :: vs).sum / ((vs.length + 1 : ℕ) : ℚ))
        ≤ vs.foldl max v + 1/2000 := by
  have hnpos : (0:ℚ) < ((vs.length + 1 : ℕ) : ℚ) := by positivity
  have hsum_nn : (0:ℚ) ≤ (v :: vs).sum := List.sum_nonneg hnn
  have hmean_nn : 0 ≤ (v :: vs).sum / ((vs.length + 1 : ℕ) : ℚ) :=
    div_nonneg hsum_nn (le_of_lt hnpos)
  have hminall : ∀ x ∈ v :: vs, vs.foldl min v ≤ x := by
    intro x hx
    rcases List.mem_cons.mp hx with h | h
    · rw [h]
      exact foldl_min_le_init vs v
    · exact foldl_min_le_mem v h
  have hmaxall : ∀ x ∈ v :: vs, x ≤ vs.foldl max v := by
    intro x hx
    rcases List.mem_cons.mp hx with h | h
    · rw [h]
      exact le_foldl_max_init vs v
    · exact le_foldl_max_mem v h
  have hminmean : vs.foldl min v
      ≤ (v :: vs).sum / ((vs.length + 1 : ℕ) : ℚ) := by
    rw [le_div_iff₀ hnpos]
    have h := card_mul_le_sum (v :: vs) (vs.foldl min v) hminall
    simp only [List.length_cons] at h
    exact h
  have hmeanmax : (v :: vs).sum / ((vs.length + 1 : ℕ) : ℚ)
      ≤ vs.foldl max v := by
    rw [div_le_iff₀ hnpos]
    have h := sum_le_card_mul (v :: vs) (vs.foldl max v) hmaxall
    simp only [List.length_cons] at h
    linarith
  have hrb := round3_bounds _ hmean_nn
  have hlen : (analyticsSelect store stq w now).length = vs.length + 1 := by
    have h := congrArg List.length hsel
    simpa using h
  have hsum : ((analyticsSelect store stq w now).map
        (·.frequencyHz)).foldl jadd (.finite 0)
      = .finite ((v :: vs).sum) := by
    rw [hsel, foldl_jadd_finite, zero_add]
  have hminfold : ((analyticsSelect store stq w now).map
        (·.frequencyHz)).foldl jmin .posInf
      = .finite (vs.foldl min v) := by
    rw [hsel, List.map_cons, List.foldl_cons]
    have h0 : jmin JNum.posInf (JNum.finite v) = JNum.finite v := rfl
    rw [h0, foldl_jmin_finite]
  have hmaxfold : ((analyticsSelect store stq w now).map
        (·.frequencyHz)).foldl jmax .negInf
      = .finite (vs.foldl max v) := by
    rw [hsel, List.map_cons, List.foldl_cons]
    have h0 : jmax JNum.negInf (JNum.finite v) = JNum.finite v := rfl
    rw [h0, foldl_jmax_finite]
  have hlen2 : ((analyticsSelect store stq w now).map
      (·.frequencyHz)).length = vs.length + 1 := by
    rw [List.length_map, hlen]
  have havg : jdiv1000 (jround (jmul1000 (jdivNat
        (((analyticsSelect store stq w now).map
          (·.frequencyHz)).foldl jadd (.finite 0))
        ((analyticsSelect store stq w now).map (·.frequencyHz)).length)))
      = .finite (round3 ((v :: vs).sum / ((vs.length + 1 : ℕ) : ℚ))) := by
    rw [hsum, hlen2]
    simp only [jdivNat, jmul1000, jround, jdiv1000]
    congr 1
    rw [round3, roundHalfAwayFromZero,
      if_pos (mul_nonneg hmean_nn (by norm_num : (0:ℚ) ≤ 1000))]
  refine ⟨?_, hminmean, hmeanmax, by linarith [hrb.1], by linarith [hrb.2]⟩
  unfold analyticsRoute
  dsimp only
  rw [if_neg (by omega), if_neg (by rw [hlen]; omega)]
  rw [havg, hminfold, hmaxfold, hlen]

/-- Witness for C1 at the spec's end-to-end example (three `eeg`
measurements of 10, 20, 30 Hz in a 60-minute window). -/
theorem analytics_nonempty_stats_witness :
    ((0:ℤ) < 60 ∧ (60:ℤ) ≤ 1440
      ∧ (analyticsSelect exStore (some "eeg") 60 0).map (·.frequencyHz)
          = ((10:ℚ) :: [20, 30]).map JNum.finite
      ∧ (∀ x ∈ (10:ℚ) :: [20, 30], (0:ℚ) ≤ x))
    ∧ (((analyticsRoute exStore (some "eeg") (some 60) 0).1
      = .ok { averageHz := .finite (round3 (((10:ℚ) :: [20, 30]).sum
                / ((([20, 30] : List ℚ).length + 1 : ℕ) : ℚ))),
              minHz := .finite (([20, 30] : List ℚ).foldl min 10),
              maxHz := .finite (([20, 30] : List ℚ).foldl max 10),
              sampleCount := ([20, 30] : List ℚ).length + 1,
              signalType := (normalizeSignalType (some "eeg")).getD "all",
              windowMinutes := 60 })
    ∧ ([20, 30] : List ℚ).foldl min 10
        ≤ ((10:ℚ) :: [20, 30]).sum / ((([20, 30] : List ℚ).length + 1 : ℕ) : ℚ)
    ∧ ((10:ℚ) :: [20, 30]).sum / ((([20, 30] : List ℚ).length + 1 : ℕ) : ℚ)
        ≤ ([20, 30] : List ℚ).foldl max 10
    ∧ ([20, 30] : List ℚ).foldl min 10 - 1/2000
        ≤ round3 (((10:ℚ) :: [20, 30]).sum
            / ((([20, 30] : List ℚ).length + 1 : ℕ) : ℚ))
    ∧ round3 (((10:ℚ) :: [20, 30]).sum
            / ((([20, 30] : List ℚ).length + 1 : ℕ) : ℚ))
        ≤ ([20, 30] : List ℚ).foldl max 10 + 1/2000) :=
  ⟨⟨by decide, by decide, by decide, by decide⟩,
   analytics_nonempty_stats exStore (some "eeg") 60 0 10 [20, 30]
     (by decide) (by decide) (by decide) (by decide)⟩

end Operator996
